import Mathlib

/-!
Verification of the command-dispatch / IPC subsystem of the `tab` CLI
(`src/cli/src/{ipc,daemon,types,config,session,main}.rs` and
`src/cli/src/commands/mod.rs`).

The wire format is newline-delimited JSON.  We embed `serde_json::Value`
as the inductive `Json` (numbers restricted to integers: no command or
envelope in this protocol carries a float), the compact serializer
`serde_json::to_vec` as `renderJson`, and the parser
`serde_json::from_slice` as `parseJsonTop`.  Byte strings are modelled as
`List Char` (UTF-8 encoding of a unicode scalar sequence is injective, so
nothing is lost working at the scalar level).  All functions are written
with structural recursion (fuel where needed) so that concrete runs
reduce by `rfl`/`decide`.
-/

namespace Tab

/-- Embedding of `serde_json::Value`.  Object fields keep their textual
order; serialization of the repo's structs never produces duplicate
keys. -/
inductive Json where
  | null : Json
  | bool (b : Bool) : Json
  | num (n : Int) : Json
  | str (s : List Char) : Json
  | arr (elems : List Json) : Json
  | obj (fields : List (List Char × Json)) : Json

/-- Decimal digit character for `n < 10` (serializer side). -/
def digitChar (n : Nat) : Char := Char.ofNat (48 + n)

/-- Lowercase hex digit character for `n < 16` (used by `\u00XX` escapes,
matching `serde_json`'s lowercase control-character escapes). -/
def hexDigitChar (n : Nat) : Char :=
  if n < 10 then Char.ofNat (48 + n) else Char.ofNat (87 + n)

/-- Model of `serde_json` string escaping: `"` and `\` get a backslash, the five
named control escapes are used where available, all other control
characters become `\u00XX`, and everything else is emitted raw. -/
def escapeChar (c : Char) : List Char :=
  if c = '"' then ['\\', '"']
  else if c = '\\' then ['\\', '\\']
  else if c = '\n' then ['\\', 'n']
  else if c = '\r' then ['\\', 'r']
  else if c = '\t' then ['\\', 't']
  else if c.toNat = 8 then ['\\', 'b']
  else if c.toNat = 12 then ['\\', 'f']
  else if c.toNat < 32 then
    ['\\', 'u', '0', '0', hexDigitChar (c.toNat / 16), hexDigitChar (c.toNat % 16)]
  else [c]

/-- A JSON string literal: quote, escaped body, quote. -/
def renderString (s : List Char) : List Char :=
  '"' :: (s.flatMap escapeChar ++ ['"'])

/-- Decimal digits of `n`, most significant first, via explicit fuel
(`fuel > n` always suffices) so the definition is structural. -/
def natDigitsAux : Nat → Nat → List Char
  | 0, _ => []
  | fuel + 1, n =>
    if n < 10 then [digitChar n]
    else natDigitsAux fuel (n / 10) ++ [digitChar (n % 10)]

/-- Decimal digits of `n`, most significant first. -/
def natDigits (n : Nat) : List Char := natDigitsAux (n + 1) n

/-- Compact decimal rendering of an integer. -/
def renderInt (n : Int) : List Char :=
  if n < 0 then '-' :: natDigits n.natAbs else natDigits n.toNat

mutual
/-- Compact (whitespace-free) serialization, as `serde_json::to_vec`. -/
def renderJson : Json → List Char
  | .null => ("null").data
  | .bool true => ("true").data
  | .bool false => ("false").data
  | .num n => renderInt n
  | .str s => renderString s
  | .arr [] => ['[', ']']
  | .arr (v :: vs) => '[' :: (renderElems v vs ++ [']'])
  | .obj [] => ['{', '}']
  | .obj (f :: fs) => '{' :: (renderFields f fs ++ ['}'])
termination_by v => sizeOf v
decreasing_by all_goals (simp_wf <;> omega)
/-- Comma-separated rendering of a nonempty element list. -/
def renderElems : Json → List Json → List Char
  | v, [] => renderJson v
  | v, w :: vs => renderJson v ++ ',' :: renderElems w vs
termination_by v vs => sizeOf (v :: vs)
decreasing_by all_goals (simp_wf <;> omega)
/-- Comma-separated rendering of a nonempty field list. -/
def renderFields : (List Char × Json) → List (List Char × Json) → List Char
  | (k, v), [] => renderString k ++ ':' :: renderJson v
  | (k, v), f :: fs => renderString k ++ ':' :: renderJson v ++ ',' :: renderFields f fs
termination_by f fs => sizeOf (f :: fs)
decreasing_by all_goals (simp_wf <;> omega)
end

/-- JSON insignificant whitespace (space, newline, tab, carriage return). -/
def isWsChar (c : Char) : Bool :=
  c.toNat = 32 || c.toNat = 10 || c.toNat = 9 || c.toNat = 13

/-- ASCII decimal digit test. -/
def isDigitChar (c : Char) : Bool :=
  48 ≤ c.toNat && c.toNat ≤ 57

/-- Drop leading insignificant whitespace. -/
def skipWs : List Char → List Char
  | [] => []
  | c :: rest => if isWsChar c then skipWs rest else c :: rest

/-- Numeric value of a hex digit character. -/
def hexVal (c : Char) : Option Nat :=
  if 48 ≤ c.toNat ∧ c.toNat ≤ 57 then some (c.toNat - 48)
  else if 97 ≤ c.toNat ∧ c.toNat ≤ 102 then some (c.toNat - 87)
  else if 65 ≤ c.toNat ∧ c.toNat ≤ 70 then some (c.toNat - 55)
  else none

/-- Single-character escapes accepted after a backslash. -/
def unescapeChar (e : Char) : Option Char :=
  if e = '"' then some '"'
  else if e = '\\' then some '\\'
  else if e = '/' then some '/'
  else if e = 'n' then some '\n'
  else if e = 'r' then some '\r'
  else if e = 't' then some '\t'
  else if e = 'b' then some (Char.ofNat 8)
  else if e = 'f' then some (Char.ofNat 12)
  else none

/-- Parse a JSON string body after the opening quote; returns the decoded
characters and the input following the closing quote.  Raw control
characters are rejected, as in `serde_json`.  (`\uXXXX` surrogate pairs
are not recombined; lone escapes outside the surrogate range are taken
at face value, which covers everything the serializer emits.)  The fuel
makes the recursion structural; every step consumes at least one input
character, so `fuel = input.length` (supplied by `parseStringBody`)
always suffices. -/
def parseStringBodyF : Nat → List Char → Option (List Char × List Char)
  | 0, _ => none
  | fuel + 1, input =>
    match input with
    | [] => none
    | c :: rest =>
      if c = '"' then some ([], rest)
      else if c = '\\' then
        match rest with
        | [] => none
        | e :: rest2 =>
          if e = 'u' then
            match rest2 with
            | h1 :: h2 :: h3 :: h4 :: rest3 =>
              match hexVal h1, hexVal h2, hexVal h3, hexVal h4 with
              | some a, some b, some c4, some d =>
                let n := ((a * 16 + b) * 16 + c4) * 16 + d
                if n < 55296 then
                  match parseStringBodyF fuel rest3 with
                  | some (s, r) => some (Char.ofNat n :: s, r)
                  | none => none
                else none
              | _, _, _, _ => none
            | _ => none
          else
            match unescapeChar e with
            | some u =>
              match parseStringBodyF fuel rest2 with
              | some (s, r) => some (u :: s, r)
              | none => none
            | none => none
      else if c.toNat < 32 then none
      else
        match parseStringBodyF fuel rest with
        | some (s, r) => some (c :: s, r)
        | none => none

/-- String-body parsing with its canonical fuel. -/
def parseStringBody (input : List Char) : Option (List Char × List Char) :=
  parseStringBodyF input.length input

/-- Greedily consume decimal digits, accumulating their value. -/
def parseNatAux : List Char → Nat → Nat × List Char
  | [], acc => (acc, [])
  | c :: rest, acc =>
    if isDigitChar c then parseNatAux rest (acc * 10 + (c.toNat - 48))
    else (acc, c :: rest)

/-- Parse a natural number (at least one leading digit required). -/
def parseNat : List Char → Option (Nat × List Char)
  | [] => none
  | c :: rest =>
    if isDigitChar c then some (parseNatAux (c :: rest) 0) else none

/-- Comma-separated values up to a closing `]`.  `pv` parses one value
(it will be instantiated with `parseVal fuel`); the fuel bounds the
number of elements, so the recursion is structural. -/
def parseElemsF (pv : List Char → Option (Json × List Char)) :
    Nat → List Char → Option (List Json × List Char)
  | 0, _ => none
  | fuel + 1, input =>
    match pv input with
    | none => none
    | some (v, r) =>
      match skipWs r with
      | [] => none
      | c :: r2 =>
        if c = ',' then
          match parseElemsF pv fuel r2 with
          | some (vs, r3) => some (v :: vs, r3)
          | none => none
        else if c = ']' then some ([v], r2)
        else none

/-- Comma-separated `"key":value` fields up to a closing `}`. -/
def parseFieldsF (pv : List Char → Option (Json × List Char)) :
    Nat → List Char → Option (List (List Char × Json) × List Char)
  | 0, _ => none
  | fuel + 1, input =>
    match skipWs input with
    | [] => none
    | q :: rest =>
      if q = '"' then
        match parseStringBody rest with
        | none => none
        | some (k, r) =>
          match skipWs r with
          | [] => none
          | c :: r2 =>
            if c = ':' then
              match pv r2 with
              | none => none
              | some (v, r3) =>
                match skipWs r3 with
                | [] => none
                | c2 :: r4 =>
                  if c2 = ',' then
                    match parseFieldsF pv fuel r4 with
                    | some (fs, r5) => some ((k, v) :: fs, r5)
                    | none => none
                  else if c2 = '}' then some ([(k, v)], r4)
                  else none
            else none
      else none

/-- Recursive-descent JSON value parser (fuel bounds the nesting and the
element counts; `parseJsonTop` supplies enough fuel for any input). -/
def parseVal : Nat → List Char → Option (Json × List Char)
  | 0, _ => none
  | fuel + 1, input =>
    match skipWs input with
    | [] => none
    | c :: rest =>
      if c = 'n' then
        match rest with
        | 'u' :: 'l' :: 'l' :: r => some (.null, r)
        | _ => none
      else if c = 't' then
        match rest with
        | 'r' :: 'u' :: 'e' :: r => some (.bool true, r)
        | _ => none
      else if c = 'f' then
        match rest with
        | 'a' :: 'l' :: 's' :: 'e' :: r => some (.bool false, r)
        | _ => none
      else if c = '"' then
        match parseStringBody rest with
        | some (s, r) => some (.str s, r)
        | none => none
      else if c = '[' then
        match skipWs rest with
        | [] => none
        | c2 :: r2 =>
          if c2 = ']' then some (.arr [], r2)
          else
            match parseElemsF (parseVal fuel) fuel (c2 :: r2) with
            | some (vs, r3) => some (.arr vs, r3)
            | none => none
      else if c = '{' then
        match skipWs rest with
        | [] => none
        | c2 :: r2 =>
          if c2 = '}' then some (.obj [], r2)
          else
            match parseFieldsF (parseVal fuel) fuel (c2 :: r2) with
            | some (fs, r3) => some (.obj fs, r3)
            | none => none
      else if c = '-' then
        match parseNat rest with
        | some (n, r) => some (.num (-(n : Int)), r)
        | none => none
      else if isDigitChar c then
        match parseNat (c :: rest) with
        | some (n, r) => some (.num (n : Int), r)
        | none => none
      else none

/-- Model of `serde_json::from_slice` restricted to this protocol: parse one JSON
value and require that only whitespace follows it. -/
def parseJsonTop (input : List Char) : Option Json :=
  match parseVal (input.length + 1) input with
  | some (v, r) => if skipWs r = [] then some v else none
  | none => none

/-! Section: round-trip — parsing a rendered value gives the value back -/

mutual
/-- Fuel sufficient for `parseVal` to parse a rendered `v`. -/
def needVal : Json → Nat
  | .null => 1
  | .bool _ => 1
  | .num _ => 1
  | .str _ => 1
  | .arr vs => 1 + needList vs
  | .obj fs => 1 + needPairs fs
/-- Fuel sufficient for the element loop of an array. -/
def needList : List Json → Nat
  | [] => 0
  | v :: vs => 1 + needVal v + needList vs
/-- Fuel sufficient for the field loop of an object. -/
def needPairs : List (List Char × Json) → Nat
  | [] => 0
  | f :: fs => 1 + needVal f.2 + needPairs fs
end

/-- The input may continue after a rendered number only with a non-digit
(in rendered composite values the next character is `,`, `]`, or `}`). -/
def numBoundary : List Char → Bool
  | [] => true
  | c :: _ => !(isDigitChar c)


/-! Section: protocol data model (`src/cli/src/types.rs`, `src/cli/src/error.rs`,
`src/cli/src/config.rs`) -/

/-- Model of `CommandType` (types.rs): all supported command kinds. -/
inductive CommandType where
  | Navigate | Open | Back | Forward | Reload | Close
  | Snapshot
  | Click | Dblclick | Fill | Type | Press | Hover | Focus | Check | Uncheck | Select
  | Scroll | Scrollintoview
  | Get | Is | Find
  | Drag | Upload | Mouse | Wait
  | Tab | TabNew | TabClose | TabSwitch | TabList
  | Screenshot | Pdf
  | Eval
deriving DecidableEq

/-- The `snake_case` serde name of a command kind
(`#[serde(rename_all = "snake_case")]` on `CommandType`). -/
def commandTypeStr : CommandType → List Char
  | .Navigate => "navigate".data
  | .Open => "open".data
  | .Back => "back".data
  | .Forward => "forward".data
  | .Reload => "reload".data
  | .Close => "close".data
  | .Snapshot => "snapshot".data
  | .Click => "click".data
  | .Dblclick => "dblclick".data
  | .Fill => "fill".data
  | .Type => "type".data
  | .Press => "press".data
  | .Hover => "hover".data
  | .Focus => "focus".data
  | .Check => "check".data
  | .Uncheck => "uncheck".data
  | .Select => "select".data
  | .Scroll => "scroll".data
  | .Scrollintoview => "scrollintoview".data
  | .Get => "get".data
  | .Is => "is".data
  | .Find => "find".data
  | .Drag => "drag".data
  | .Upload => "upload".data
  | .Mouse => "mouse".data
  | .Wait => "wait".data
  | .Tab => "tab".data
  | .TabNew => "tab_new".data
  | .TabClose => "tab_close".data
  | .TabSwitch => "tab_switch".data
  | .TabList => "tab_list".data
  | .Screenshot => "screenshot".data
  | .Pdf => "pdf".data
  | .Eval => "eval".data

/-- Model of `Command` (types.rs).  The `profile` field follows
`CommandBuilder` in `commands/mod.rs` and the unix tests in `ipc.rs`,
which construct commands with an optional profile; it is serialized only
when present, like `params` (`skip_serializing_if = "Option::is_none"`). -/
structure Command where
  id : String
  session_id : String
  profile : Option String
  command_type : CommandType
  params : Option Json
  timestamp : String

/-- Model of `CommandResponse` (types.rs): `data` and `error` are optional and
skipped when absent. -/
structure CommandResponse where
  id : String
  success : Bool
  data : Option Json
  error : Option String

/-- Model of `IpcMessageType` (types.rs), serde `snake_case`. -/
inductive IpcMessageType where
  | command | response | ping | pong
deriving DecidableEq

/-- Model of `IpcMessage` (types.rs): the wire envelope.  `payload` has no skip
attribute, so `None` serializes as JSON `null`. -/
structure IpcMessage where
  message_type : IpcMessageType
  payload : Option Json

/-- Model of `CliError` (error.rs). -/
inductive CliError where
  | DaemonNotRunning (msg : String)
  | ConnectionFailed (msg : String)
  | ConnectionTimeout
  | CommandFailed (msg : String)
  | CommandTimeout
  | InvalidArguments (msg : String)
  | InvalidSession (msg : String)
  | ProtocolError (msg : String)
  | IoError (msg : String)
  | SerializationError (msg : String)
deriving DecidableEq

/-- Exit code of each error class (`CliError::exit_code`, error.rs). -/
def CliError.exit_code : CliError → Int
  | .DaemonNotRunning _ => 2
  | .ConnectionFailed _ | .ConnectionTimeout => 3
  | .CommandFailed _ | .CommandTimeout => 1
  | .InvalidArguments _ => 64
  | .InvalidSession _ => 65
  | .ProtocolError _ => 76
  | .IoError _ => 74
  | .SerializationError _ => 65

/-- Model of `Config` (config.rs); the socket path is kept as a plain string for
display purposes (filesystem structure is irrelevant to the claims). -/
structure Config where
  ipc_socket_path : String
  default_session : String
  connection_timeout_ms : Nat
  command_timeout_ms : Nat

/-! Section: wire codec for envelopes (`serialize_message` / `deserialize_message`,
ipc.rs lines 162-170) -/

/-- Message delimiter for framing (`MESSAGE_DELIMITER`, ipc.rs). -/
def MESSAGE_DELIMITER : Char := '\n'

/-- The serde name of an envelope kind. -/
def ipcTypeStr : IpcMessageType → List Char
  | .command => "command".data
  | .response => "response".data
  | .ping => "ping".data
  | .pong => "pong".data

/-- serde serialization of `IpcMessage`: a two-field object; `payload`
is always emitted (`null` when `None`). -/
def msgToJson (m : IpcMessage) : Json :=
  .obj [("type".data, .str (ipcTypeStr m.message_type)),
        ("payload".data, match m.payload with
          | none => .null
          | some v => v)]

/-- serde serialization of `Command` (camelCase field names, `type` for
the kind, `profile`/`params` omitted when `None`). -/
def commandToJson (c : Command) : Json :=
  .obj ([("id".data, .str c.id.data), ("sessionId".data, .str c.session_id.data)]
    ++ (match c.profile with
        | none => []
        | some p => [("profile".data, Json.str p.data)])
    ++ [("type".data, .str (commandTypeStr c.command_type))]
    ++ (match c.params with
        | none => []
        | some v => [("params".data, v)])
    ++ [("timestamp".data, .str c.timestamp.data)])

/-- Model of `serialize_message` (ipc.rs): serde to bytes, then append the
delimiter.  (In the source serde can in principle fail; for these types
it cannot, so the embedding is total.) -/
def serialize_message (message : IpcMessage) : List Char :=
  renderJson (msgToJson message) ++ [MESSAGE_DELIMITER]

/-- First binding of a key in a JSON object field list. -/
def lookupField : List (List Char × Json) → List Char → Option Json
  | [], _ => none
  | (k, v) :: fs, key => if k = key then some v else lookupField fs key

/-- serde deserialization of the `type` discriminant. -/
def kindOfStr (s : List Char) : Option IpcMessageType :=
  if s = "command".data then some .command
  else if s = "response".data then some .response
  else if s = "ping".data then some .ping
  else if s = "pong".data then some .pong
  else none

/-- serde deserialization of an `Option<Value>` field: absent and `null`
both become `None`. -/
def payloadOpt : Option Json → Option Json
  | none => none
  | some .null => none
  | some v => some v

/-- serde deserialization of `IpcMessage` from a JSON value: the input
must be an object whose `type` field is one of the four known kinds;
unknown extra fields are ignored.  Failures carry the
`serde_json::Error -> CliError::SerializationError` conversion from
error.rs. -/
def msgFromJson : Json → Except CliError IpcMessage
  | .obj fields =>
    match lookupField fields ("type".data) with
    | some (.str s) =>
      match kindOfStr s with
      | some k => .ok ⟨k, payloadOpt (lookupField fields ("payload".data))⟩
      | none => .error (.SerializationError ("unknown variant of type field"))
    | some _ => .error (.SerializationError ("type field is not a string"))
    | none => .error (.SerializationError ("missing field type"))
  | _ => .error (.SerializationError ("invalid type: expected struct IpcMessage"))

/-- Model of `deserialize_message` (ipc.rs): `serde_json::from_slice` on the raw
bytes; any parse or shape failure becomes `SerializationError`. -/
def deserialize_message (data : List Char) : Except CliError IpcMessage :=
  match parseJsonTop data with
  | none => .error (.SerializationError ("invalid JSON"))
  | some v => msgFromJson v

/-- serde deserialization of an `Option<String>` field. -/
def optStringField : Option Json → Option (Option String)
  | none => some none
  | some .null => some none
  | some (.str s) => some (some (String.mk s))
  | some _ => none

/-- serde deserialization of `CommandResponse` from a JSON value
(`serde_json::from_value` in `send_command`): `id` must be a string,
`success` a bool; `data`/`error` optional; extra fields ignored. -/
def commandResponseFromJson : Json → Except CliError CommandResponse
  | .obj fields =>
    match lookupField fields ("id".data) with
    | some (.str idChars) =>
      match lookupField fields ("success".data) with
      | some (.bool b) =>
        match optStringField (lookupField fields ("error".data)) with
        | some errOpt =>
          .ok { id := String.mk idChars, success := b,
                data := payloadOpt (lookupField fields ("data".data)),
                error := errOpt }
        | none => .error (.SerializationError ("invalid error field"))
      | _ => .error (.SerializationError ("missing or invalid success field"))
    | _ => .error (.SerializationError ("missing or invalid id field"))
  | _ => .error (.SerializationError ("invalid type: expected struct CommandResponse"))

/-! Section: transport connector and IPC client (ipc.rs) -/

/-- The connected stream; only its read/write deadlines are observable
to the claims (`IpcStream = UnixStream` on unix). -/
structure IpcStream where
  read_timeout : Option Nat
  write_timeout : Option Nat

/-- Model of `connect_to_daemon` (ipc.rs lines 110-126, unix): refuse immediately
with `DaemonNotRunning` when the socket path does not exist; otherwise
the OS-level connection attempt (`connect_os`, an input of the model)
either fails — mapped to `ConnectionFailed` — or yields a stream whose
read and write timeouts are then set to the connect timeout. -/
def connect_to_daemon (socket_exists : Bool) (connect_os : Except String IpcStream)
    (timeout : Nat) (socket_path : String) : Except CliError IpcStream :=
  if socket_exists = false then
    .error (.DaemonNotRunning ("socket not found at " ++ socket_path))
  else
    match connect_os with
    | .error err => .error (.ConnectionFailed err)
    | .ok stream =>
      .ok { stream with read_timeout := some timeout, write_timeout := some timeout }

/-- Model of `send_bytes` (ipc.rs): write then flush; an OS write failure
surfaces as `CliError::IoError`. -/
def send_bytes (write_os : Except String Unit) : Except CliError Unit :=
  match write_os with
  | .error e => .error (.IoError e)
  | .ok _ => .ok ()

/-- Bytes up to and including the first delimiter: the observable
behavior of `BufReader::read_until` on a stream whose remaining content
until EOF is `input`. -/
def take_through_delim : List Char → List Char
  | [] => []
  | c :: rest => if c = MESSAGE_DELIMITER then [c] else c :: take_through_delim rest

/-- Model of `read_message` (ipc.rs lines 179-196) on a stream whose available
content until EOF is `input`: zero bytes read is `empty response`; a
stream that ends without a delimiter is `missing message delimiter`;
otherwise the bytes before the (stripped) delimiter. -/
def read_message (input : List Char) : Except CliError (List Char) :=
  let buf := take_through_delim input
  if buf.length = 0 then .error (.ProtocolError ("empty response"))
  else if ¬(buf.getLast? = some MESSAGE_DELIMITER) then
    .error (.ProtocolError ("missing message delimiter"))
  else .ok buf.dropLast

/-- An OS read failure (e.g. a timeout) inside `read_until` surfaces as
`CliError::IoError`; otherwise the framing logic of `read_message`
applies to the delivered bytes. -/
def read_message_io (read_os : Except String (List Char)) : Except CliError (List Char) :=
  match read_os with
  | .error e => .error (.IoError e)
  | .ok input => read_message input

/-- Model of `IpcClient::ping` (ipc.rs lines 51-68).  The world inputs are:
whether the socket path exists, the OS connect outcome, the OS write
outcome, and the OS read outcome (the peer's reply bytes up to EOF).
Note the source returns `Result<bool>`: errors are propagated here and
collapsed to `false` only by `is_daemon_running`. -/
def ping (config : Config) (socket_exists : Bool) (connect_os : Except String IpcStream)
    (write_os : Except String Unit) (read_os : Except String (List Char)) :
    Except CliError Bool :=
  match connect_to_daemon socket_exists connect_os config.connection_timeout_ms
      config.ipc_socket_path with
  | .error e => .error e
  | .ok _stream =>
    let _bytes := serialize_message { message_type := .ping, payload := none }
    match send_bytes write_os with
    | .error e => .error e
    | .ok _ =>
      match read_message_io read_os with
      | .error e => .error e
      | .ok response_bytes =>
        match deserialize_message response_bytes with
        | .error e => .error e
        | .ok response => .ok (decide (response.message_type = .pong))

/-- Model of `is_daemon_running` (daemon.rs lines 53-62): a quick socket-existence
pre-check, then `ping().unwrap_or(false)` — every `ping` error collapses
to `false`. -/
def is_daemon_running (config : Config) (socket_exists : Bool)
    (connect_os : Except String IpcStream) (write_os : Except String Unit)
    (read_os : Except String (List Char)) : Bool :=
  if socket_exists = false then false
  else
    match ping config socket_exists connect_os write_os read_os with
    | .ok b => b
    | .error _ => false

/-- Model of `IpcClient::send_command` (ipc.rs lines 71-107). -/
def send_command (config : Config) (socket_exists : Bool)
    (connect_os : Except String IpcStream) (write_os : Except String Unit)
    (read_os : Except String (List Char)) (command : Command) :
    Except CliError CommandResponse :=
  match connect_to_daemon socket_exists connect_os config.connection_timeout_ms
      config.ipc_socket_path with
  | .error e => .error e
  | .ok stream =>
    let _stream : IpcStream := { stream with
      read_timeout := some config.command_timeout_ms,
      write_timeout := some config.command_timeout_ms }
    let payload := commandToJson command
    let _bytes := serialize_message { message_type := .command, payload := some payload }
    match send_bytes write_os with
    | .error e => .error e
    | .ok _ =>
      match read_message_io read_os with
      | .error e => .error e
      | .ok response_bytes =>
        match deserialize_message response_bytes with
        | .error e => .error e
        | .ok response =>
          if ¬(response.message_type = .response) then
            .error (.ProtocolError ("unexpected response type"))
          else
            match response.payload with
            | none => .error (.ProtocolError ("missing response payload"))
            | some payload => commandResponseFromJson payload

/-! Section: daemon supervisor (daemon.rs) -/

/-- Model of `DAEMON_STARTUP_TIMEOUT_MS` (daemon.rs). -/
def DAEMON_STARTUP_TIMEOUT_MS : Nat := 10000

/-- Model of `DAEMON_POLL_INTERVAL_MS` (daemon.rs). -/
def DAEMON_POLL_INTERVAL_MS : Nat := 100

/-- The polling loop of `wait_for_daemon_ready`: `probe k` is the
outcome of the `is_daemon_running` check in iteration `k`, and the
elapsed time at iteration `k` is modelled discretely as
`k * DAEMON_POLL_INTERVAL_MS` (one sleep per iteration).  The fuel only
makes the recursion structural: the timeout check fires at iteration
101, strictly before the supplied fuel (102) runs out, and the
fuel-exhausted branch returns the same timeout error. -/
def waitAux (probe : Nat → Bool) : Nat → Nat → Except CliError Unit
  | 0, _ => .error (.DaemonNotRunning ("daemon failed to start within timeout"))
  | fuel + 1, k =>
    if DAEMON_POLL_INTERVAL_MS * k > DAEMON_STARTUP_TIMEOUT_MS then
      .error (.DaemonNotRunning ("daemon failed to start within timeout"))
    else if probe k then .ok ()
    else waitAux probe fuel (k + 1)

/-- Model of `wait_for_daemon_ready` (daemon.rs lines 117-138). -/
def wait_for_daemon_ready (probe : Nat → Bool) : Except CliError Unit :=
  waitAux probe (DAEMON_STARTUP_TIMEOUT_MS / DAEMON_POLL_INTERVAL_MS + 2) 0

/-- Result of `ensure_daemon_running` together with the number of
`start_daemon` spawn attempts that were made. -/
structure EnsureOutcome where
  result : Except CliError Unit
  spawn_attempts : Nat

/-- Model of `ensure_daemon_running` (daemon.rs lines 41-50): probe first; only
when the probe fails, spawn once (`start_daemon`, whose outcome is the
input `spawn`), then poll until ready.  `probe 0` is the initial
`is_daemon_running` check; `probe (k+1)` is the check in poll iteration
`k` of `wait_for_daemon_ready`. -/
def ensure_daemon_running (probe : Nat → Bool) (spawn : Except CliError Unit) :
    EnsureOutcome :=
  if probe 0 then { result := .ok (), spawn_attempts := 0 }
  else
    match spawn with
    | .error e => { result := .error e, spawn_attempts := 1 }
    | .ok _ => { result := wait_for_daemon_ready (fun k => probe (k + 1)),
                 spawn_attempts := 1 }

/-! Section: dispatcher (commands/mod.rs) and resolution (main.rs) -/

/-- Model of `serde_json::Value::is_object`. -/
def Json.is_object : Json → Bool
  | .obj _ => true
  | _ => false

/-- Model of `serde_json::Value::as_object`. -/
def Json.as_object : Json → Option (List (List Char × Json))
  | .obj fields => some fields
  | _ => none

/-- Model of `CommandBuilder::build` (commands/mod.rs lines 64-80).  The fresh id
(`generate_command_id`) and timestamp (`current_timestamp`) are
effectful in the source and are inputs here. -/
def CommandBuilder.build (session_id : String) (profile : Option String)
    (fresh_id : String) (now : String) (command_type : CommandType) (params : Json) :
    Command :=
  let params_opt :=
    if params.is_object && (params.as_object.elim true fun o => o.isEmpty) then none
    else some params
  { id := fresh_id, session_id := session_id, profile := profile,
    command_type := command_type, params := params_opt, timestamp := now }

/-- Model of `resolve_session_id` (main.rs lines 92-102; the same precedence as
`SessionResolver::resolve`, session.rs): explicit flag, then the
`TAB_SESSION` environment value, then the configured default. -/
def resolve_session_id (default_session : String) (explicit : Option String)
    (env_session : Option String) : String :=
  match explicit with
  | some session => session
  | none =>
    match env_session with
    | some session => session
    | none => default_session

/-- Model of `resolve_profile` (main.rs lines 104-110; the same precedence as
`SessionResolver::resolve_profile`, session.rs): explicit flag, then the
`TAB_PROFILE` environment value, else `None` (system default). -/
def resolve_profile (explicit : Option String) (env_profile : Option String) :
    Option String :=
  match explicit with
  | some profile => some profile
  | none => env_profile

/-- The key list of a JSON object (empty for non-objects); used to state
which fields are present in the wire form. -/
def objKeys : Json → List (List Char)
  | .obj fields => fields.map Prod.fst
  | _ => []

/-- The default configuration values (`Config::default`, config.rs),
for concrete runs. -/
def cfg0 : Config :=
  { ipc_socket_path := "/tmp/tab-daemon.sock", default_session := "default",
    connection_timeout_ms := 5000, command_timeout_ms := 30000 }

/-- A freshly connected stream with no deadlines set, for concrete runs. -/
def stream0 : IpcStream := { read_timeout := none, write_timeout := none }

/-- A fixed command for concrete runs (mirrors the unix test command in
ipc.rs). -/
def cmd0 : Command :=
  { id := "cmd-1", session_id := "session-1", profile := none,
    command_type := .Navigate, params := none, timestamp := "2026-01-01T00:00:00Z" }

/-- A well-formed `pong` reply frame, for concrete runs. -/
def replyPong : List Char := ("\x7b\"type\":\"pong\",\"payload\":null\x7d\n").data

/-- A reply frame carrying a `ping`-kind envelope (the wrong kind for a
command reply), for concrete runs. -/
def replyPing : List Char := ("\x7b\"type\":\"ping\",\"payload\":null\x7d\n").data

/-- A `response` reply whose payload has `success:true` and also an
`error` and `data` — used to probe whether `send_command` enforces the
success/data/error invariant. -/
def replyBoth : List Char :=
  ("\x7b\"type\":\"response\",\"payload\":\x7b\"id\":\"cmd-1\",\"success\":true,\"data\":\x7b\x7d,\"error\":\"boom\"\x7d\x7d\n").data


/-- The spec's response invariant: exactly one of a data-bearing success
and an error-bearing failure. -/
def responseInvariant (r : CommandResponse) : Prop :=
  (r.success = true ∧ ¬r.data = none ∧ r.error = none) ∨
  (r.success = false ∧ ¬r.error = none ∧ r.data = none)

/-! Section: round-trip and framing proofs -/

theorem char_eq_of_toNat_eq {a b : Char} (h : a.toNat = b.toNat) : a = b := by
  have ha := Char.ofNat_toNat a
  rw [h, Char.ofNat_toNat b] at ha
  exact ha.symm

theorem skipWs_cons_of {c : Char} (h : isWsChar c = false) (r : List Char) :
    skipWs (c :: r) = c :: r := by
  simp [skipWs, h]

theorem hexVal_hexDigitChar : ∀ k, k < 16 → hexVal (hexDigitChar k) = some k := by decide

theorem parseStringBodyF_raw {c : Char} (hq : ¬c = '"') (hb : ¬c = '\\')
    (h32 : ¬c.toNat < 32) (fuel : Nat) (t : List Char) :
    parseStringBodyF (fuel + 1) (c :: t) =
      match parseStringBodyF fuel t with
      | some (s, r) => some (c :: s, r)
      | none => none := by
  show (if c = '"' then some ([], t)
        else if c = '\\' then
          match t with
          | [] => none
          | e :: rest2 =>
            if e = 'u' then
              match rest2 with
              | h1 :: h2 :: h3 :: h4 :: rest3 =>
                match hexVal h1, hexVal h2, hexVal h3, hexVal h4 with
                | some a, some b, some c4, some d =>
                  let n := ((a * 16 + b) * 16 + c4) * 16 + d
                  if n < 55296 then
                    match parseStringBodyF fuel rest3 with
                    | some (s, r) => some (Char.ofNat n :: s, r)
                    | none => none
                  else none
                | _, _, _, _ => none
              | _ => none
            else
              match unescapeChar e with
              | some u =>
                match parseStringBodyF fuel rest2 with
                | some (s, r) => some (u :: s, r)
                | none => none
              | none => none
        else if c.toNat < 32 then none
        else
          match parseStringBodyF fuel t with
          | some (s, r) => some (c :: s, r)
          | none => none) = _
  rw [if_neg hq, if_neg hb, if_neg h32]

theorem parseStringBodyF_unicode {h1 h2 h3 h4 : Char} {a b c4 d : Nat}
    (e1 : hexVal h1 = some a) (e2 : hexVal h2 = some b)
    (e3 : hexVal h3 = some c4) (e4 : hexVal h4 = some d)
    (hn : ((a * 16 + b) * 16 + c4) * 16 + d < 55296) (fuel : Nat) (t : List Char) :
    parseStringBodyF (fuel + 1) ('\\' :: 'u' :: h1 :: h2 :: h3 :: h4 :: t) =
      match parseStringBodyF fuel t with
      | some (s, r) => some (Char.ofNat (((a * 16 + b) * 16 + c4) * 16 + d) :: s, r)
      | none => none := by
  show (match hexVal h1, hexVal h2, hexVal h3, hexVal h4 with
        | some a', some b', some c4', some d' =>
          let n := ((a' * 16 + b') * 16 + c4') * 16 + d'
          if n < 55296 then
            match parseStringBodyF fuel t with
            | some (s, r) => some (Char.ofNat n :: s, r)
            | none => none
          else none
        | _, _, _, _ => none) = _
  rw [e1, e2, e3, e4]
  show (if ((a * 16 + b) * 16 + c4) * 16 + d < 55296 then
          match parseStringBodyF fuel t with
          | some (s, r) => some (Char.ofNat (((a * 16 + b) * 16 + c4) * 16 + d) :: s, r)
          | none => none
        else none) = _
  rw [if_pos hn]

/-- Parsing an escaped string body followed by the closing quote recovers
the original characters, for any sufficient fuel. -/
theorem parseStringBodyF_escape :
    ∀ (fuel : Nat) (s rest : List Char), s.length < fuel →
      parseStringBodyF fuel (s.flatMap escapeChar ++ '"' :: rest) = some (s, rest) := by
  intro fuel
  induction fuel with
  | zero => intro s rest h; omega
  | succ fuel ih =>
    intro s rest hlen
    match s with
    | [] => rfl
    | c :: s' =>
      have hs' : s'.length < fuel := by simp at hlen; omega
      have hflat : (c :: s').flatMap escapeChar ++ '"' :: rest =
          escapeChar c ++ (s'.flatMap escapeChar ++ '"' :: rest) := by
        simp [List.flatMap_cons, List.append_assoc]
      rw [hflat]
      by_cases hq : c = '"'
      · subst hq
        show (match parseStringBodyF fuel (s'.flatMap escapeChar ++ '"' :: rest) with
              | some (s, r) => some ('"' :: s, r)
              | none => none) = _
        rw [ih s' rest hs']
      · by_cases hb : c = '\\'
        · subst hb
          show (match parseStringBodyF fuel (s'.flatMap escapeChar ++ '"' :: rest) with
                | some (s, r) => some ('\\' :: s, r)
                | none => none) = _
          rw [ih s' rest hs']
        · by_cases hn : c = '\n'
          · subst hn
            show (match parseStringBodyF fuel (s'.flatMap escapeChar ++ '"' :: rest) with
                  | some (s, r) => some ('\n' :: s, r)
                  | none => none) = _
            rw [ih s' rest hs']
          · by_cases hr : c = '\r'
            · subst hr
              show (match parseStringBodyF fuel (s'.flatMap escapeChar ++ '"' :: rest) with
                    | some (s, r) => some ('\r' :: s, r)
                    | none => none) = _
              rw [ih s' rest hs']
            · by_cases ht : c = '\t'
              · subst ht
                show (match parseStringBodyF fuel (s'.flatMap escapeChar ++ '"' :: rest) with
                      | some (s, r) => some ('\t' :: s, r)
                      | none => none) = _
                rw [ih s' rest hs']
              · by_cases h8 : c.toNat = 8
                · have hesc : escapeChar c = ['\\', 'b'] := by
                    unfold escapeChar
                    rw [if_neg hq, if_neg hb, if_neg hn, if_neg hr, if_neg ht, if_pos h8]
                  rw [hesc]
                  have hc8 : Char.ofNat 8 = c := by rw [← h8, Char.ofNat_toNat]
                  show (match parseStringBodyF fuel (s'.flatMap escapeChar ++ '"' :: rest)
                          with
                        | some (s, r) => some (Char.ofNat 8 :: s, r)
                        | none => none) = _
                  rw [ih s' rest hs', hc8]
                · by_cases h12 : c.toNat = 12
                  · have hesc : escapeChar c = ['\\', 'f'] := by
                      unfold escapeChar
                      rw [if_neg hq, if_neg hb, if_neg hn, if_neg hr, if_neg ht, if_neg h8,
                        if_pos h12]
                    rw [hesc]
                    have hc12 : Char.ofNat 12 = c := by rw [← h12, Char.ofNat_toNat]
                    show (match parseStringBodyF fuel (s'.flatMap escapeChar ++ '"' :: rest)
                            with
                          | some (s, r) => some (Char.ofNat 12 :: s, r)
                          | none => none) = _
                    rw [ih s' rest hs', hc12]
                  · by_cases h32 : c.toNat < 32
                    · have hesc : escapeChar c =
                          ['\\', 'u', '0', '0', hexDigitChar (c.toNat / 16),
                            hexDigitChar (c.toNat % 16)] := by
                        unfold escapeChar
                        rw [if_neg hq, if_neg hb, if_neg hn, if_neg hr, if_neg ht,
                          if_neg h8, if_neg h12, if_pos h32]
                      rw [hesc]
                      have e1 : hexVal '0' = some 0 := rfl
                      have e3 : hexVal (hexDigitChar (c.toNat / 16)) = some (c.toNat / 16) :=
                        hexVal_hexDigitChar _ (by omega)
                      have e4 : hexVal (hexDigitChar (c.toNat % 16)) = some (c.toNat % 16) :=
                        hexVal_hexDigitChar _ (by omega)
                      have hlt : ((0 * 16 + 0) * 16 + c.toNat / 16) * 16 + c.toNat % 16 <
                          55296 := by omega
                      rw [List.cons_append, List.cons_append, List.cons_append,
                        List.cons_append, List.cons_append, List.cons_append,
                        List.nil_append]
                      rw [parseStringBodyF_unicode e1 e1 e3 e4 hlt, ih s' rest hs']
                      have hval : ((0 * 16 + 0) * 16 + c.toNat / 16) * 16 + c.toNat % 16 =
                          c.toNat := by omega
                      rw [hval, Char.ofNat_toNat]
                    · have hesc : escapeChar c = [c] := by
                        unfold escapeChar
                        simp only [hq, hb, hn, hr, ht, h8, h12, h32, if_false, ite_false]
                      rw [hesc, List.cons_append, List.nil_append,
                        parseStringBodyF_raw hq hb h32, ih s' rest hs']

/-- The function `escapeChar` always produces at least one character. -/
theorem escapeChar_length_pos (c : Char) : 0 < (escapeChar c).length := by
  unfold escapeChar
  repeat' split
  all_goals simp

/-- The escaped form is at least as long as the source. -/
theorem length_le_flatMap_escape (s : List Char) :
    s.length ≤ (s.flatMap escapeChar).length := by
  induction s with
  | nil => simp
  | cons c s' ih =>
    have := escapeChar_length_pos c
    simp only [List.flatMap_cons, List.length_append, List.length_cons]
    omega

/-- Parsing an escaped string body with the canonical fuel. -/
theorem parseStringBody_escape (s rest : List Char) :
    parseStringBody (s.flatMap escapeChar ++ '"' :: rest) = some (s, rest) := by
  apply parseStringBodyF_escape
  have := length_le_flatMap_escape s
  simp only [List.length_append, List.length_cons]
  omega

theorem parseNatAux_stop {rest : List Char} (h : numBoundary rest = true) (acc : Nat) :
    parseNatAux rest acc = (acc, rest) := by
  match rest with
  | [] => rfl
  | c :: r =>
    have hc : isDigitChar c = false := by
      simp [numBoundary] at h
      exact h
    simp [parseNatAux, hc]

theorem isDigitChar_digitChar : ∀ k, k < 10 → isDigitChar (digitChar k) = true := by decide

theorem digitChar_toNat : ∀ k, k < 10 → (digitChar k).toNat = 48 + k := by decide

theorem parseNatAux_digits :
    ∀ fuel n, n < fuel → ∀ acc rest,
      parseNatAux (natDigitsAux fuel n ++ rest) acc =
        parseNatAux rest (acc * 10 ^ (natDigitsAux fuel n).length + n) := by
  intro fuel
  induction fuel with
  | zero => intro n hn; omega
  | succ fuel ih =>
    intro n hn acc rest
    by_cases h10 : n < 10
    · have hdig : natDigitsAux (fuel + 1) n = [digitChar n] := by
        show (if n < 10 then [digitChar n]
              else natDigitsAux fuel (n / 10) ++ [digitChar (n % 10)]) = _
        rw [if_pos h10]
      rw [hdig]
      have hd := isDigitChar_digitChar n h10
      have ht := digitChar_toNat n h10
      simp only [List.cons_append, List.nil_append, List.length_cons, List.length_nil]
      rw [parseNatAux]
      rw [if_pos hd, ht]
      norm_num
    · have hdig : natDigitsAux (fuel + 1) n =
          natDigitsAux fuel (n / 10) ++ [digitChar (n % 10)] := by
        show (if n < 10 then [digitChar n]
              else natDigitsAux fuel (n / 10) ++ [digitChar (n % 10)]) = _
        rw [if_neg h10]
      rw [hdig]
      have hq : n / 10 < fuel := by omega
      rw [List.append_assoc, ih (n / 10) hq acc ([digitChar (n % 10)] ++ rest)]
      have hd := isDigitChar_digitChar (n % 10) (by omega)
      have ht := digitChar_toNat (n % 10) (by omega)
      simp only [List.cons_append, List.nil_append]
      rw [parseNatAux]
      rw [if_pos hd, ht]
      simp only [List.length_append, List.length_cons, List.length_nil]
      have harith :
          (acc * 10 ^ (natDigitsAux fuel (n / 10)).length + n / 10) * 10 +
              (48 + n % 10 - 48) =
            acc * 10 ^ ((natDigitsAux fuel (n / 10)).length + 1) + n := by
        have hpow : (10 : Nat) ^ ((natDigitsAux fuel (n / 10)).length + 1) =
            10 ^ (natDigitsAux fuel (n / 10)).length * 10 := by
          rw [pow_succ]
        rw [hpow]
        have hmod : n / 10 * 10 + n % 10 = n := by omega
        have hexp : (acc * 10 ^ (natDigitsAux fuel (n / 10)).length + n / 10) * 10 +
            (48 + n % 10 - 48) =
            acc * (10 ^ (natDigitsAux fuel (n / 10)).length * 10) +
              (n / 10 * 10 + n % 10) := by
          ring_nf
          omega
        rw [hexp, hmod]
      rw [harith]

theorem natDigitsAux_head :
    ∀ fuel n, n < fuel → ∃ c t, natDigitsAux fuel n = c :: t ∧ isDigitChar c = true := by
  intro fuel
  induction fuel with
  | zero => intro n hn; omega
  | succ fuel ih =>
    intro n hn
    by_cases h10 : n < 10
    · refine ⟨digitChar n, [], ?_, isDigitChar_digitChar n h10⟩
      show (if n < 10 then [digitChar n]
            else natDigitsAux fuel (n / 10) ++ [digitChar (n % 10)]) = _
      rw [if_pos h10]
    · obtain ⟨c, t, heq, hd⟩ := ih (n / 10) (by omega)
      refine ⟨c, t ++ [digitChar (n % 10)], ?_, hd⟩
      show (if n < 10 then [digitChar n]
            else natDigitsAux fuel (n / 10) ++ [digitChar (n % 10)]) = _
      rw [if_neg h10, heq]
      rfl

theorem parseNat_natDigits (n : Nat) {rest : List Char} (h : numBoundary rest = true) :
    parseNat (natDigits n ++ rest) = some (n, rest) := by
  obtain ⟨c, t, heq, hd⟩ := natDigitsAux_head (n + 1) n (by omega)
  unfold natDigits
  rw [heq, List.cons_append]
  rw [parseNat]
  rw [if_pos hd]
  have := parseNatAux_digits (n + 1) n (by omega) 0 rest
  rw [heq, List.cons_append] at this
  rw [this, parseNatAux_stop h]
  norm_num

/-- An ASCII digit is none of the characters the value dispatcher treats
specially, and is not whitespace. -/
theorem digit_not_special {c : Char} (hd : isDigitChar c = true) :
    ¬c = 'n' ∧ ¬c = 't' ∧ ¬c = 'f' ∧ ¬c = '"' ∧ ¬c = '[' ∧ ¬c = '{' ∧ ¬c = '-' ∧
      ¬c = ']' ∧ ¬c = '}' ∧ isWsChar c = false := by
  have hb : 48 ≤ c.toNat ∧ c.toNat ≤ 57 := by
    simpa [isDigitChar] using hd
  refine ⟨?_, ?_, ?_, ?_, ?_, ?_, ?_, ?_, ?_, ?_⟩
  all_goals first
    | (intro h; subst h; exact absurd hd (by decide))
    | (simp only [isWsChar]; simp only [Bool.or_eq_false_iff, decide_eq_false_iff_not]
       omega)

/-- One unfolding step of the value dispatcher (definitional). -/
theorem parseVal_quote (f : Nat) (body : List Char) :
    parseVal (f + 1) ('"' :: body) =
      (match parseStringBody body with
       | some (s, r) => some (.str s, r)
       | none => none) := rfl

theorem parseVal_lbrack (f : Nat) (r : List Char) :
    parseVal (f + 1) ('[' :: r) =
      (match skipWs r with
       | [] => none
       | c2 :: r2 =>
         if c2 = ']' then some (.arr [], r2)
         else
           match parseElemsF (parseVal f) f (c2 :: r2) with
           | some (vs, r3) => some (.arr vs, r3)
           | none => none) := rfl

theorem parseVal_lbrace (f : Nat) (r : List Char) :
    parseVal (f + 1) ('{' :: r) =
      (match skipWs r with
       | [] => none
       | c2 :: r2 =>
         if c2 = '}' then some (.obj [], r2)
         else
           match parseFieldsF (parseVal f) f (c2 :: r2) with
           | some (fs, r3) => some (.obj fs, r3)
           | none => none) := rfl

theorem parseVal_neg (f : Nat) (r : List Char) :
    parseVal (f + 1) ('-' :: r) =
      (match parseNat r with
       | some (n, rr) => some (.num (-(n : Int)), rr)
       | none => none) := rfl

theorem parseVal_digit {c : Char} (hd : isDigitChar c = true) (f : Nat) (r : List Char) :
    parseVal (f + 1) (c :: r) =
      (match parseNat (c :: r) with
       | some (n, rr) => some (Json.num (n : Int), rr)
       | none => none) := by
  obtain ⟨c1, c2, c3, c4, c5, c6, c7, _, _, cw⟩ := digit_not_special hd
  show (match skipWs (c :: r) with
        | [] => none
        | c :: rest =>
          if c = 'n' then
            match rest with
            | 'u' :: 'l' :: 'l' :: r => some (Json.null, r)
            | _ => none
          else if c = 't' then
            match rest with
            | 'r' :: 'u' :: 'e' :: r => some (Json.bool true, r)
            | _ => none
          else if c = 'f' then
            match rest with
            | 'a' :: 'l' :: 's' :: 'e' :: r => some (Json.bool false, r)
            | _ => none
          else if c = '"' then
            match parseStringBody rest with
            | some (s, r) => some (Json.str s, r)
            | none => none
          else if c = '[' then
            match skipWs rest with
            | [] => none
            | c2 :: r2 =>
              if c2 = ']' then some (Json.arr [], r2)
              else
                match parseElemsF (parseVal f) f (c2 :: r2) with
                | some (vs, r3) => some (Json.arr vs, r3)
                | none => none
          else if c = '{' then
            match skipWs rest with
            | [] => none
            | c2 :: r2 =>
              if c2 = '}' then some (Json.obj [], r2)
              else
                match parseFieldsF (parseVal f) f (c2 :: r2) with
                | some (fs, r3) => some (Json.obj fs, r3)
                | none => none
          else if c = '-' then
            match parseNat rest with
            | some (n, rr) => some (Json.num (-(n : Int)), rr)
            | none => none
          else if isDigitChar c then
            match parseNat (c :: rest) with
            | some (n, rr) => some (Json.num (n : Int), rr)
            | none => none
          else none) = _
  rw [skipWs_cons_of cw]
  show (if c = 'n' then _ else _) = _
  rw [if_neg c1, if_neg c2, if_neg c3, if_neg c4, if_neg c5, if_neg c6, if_neg c7,
    if_pos hd]

/-- One unfolding step of the element loop (definitional). -/
theorem parseElemsF_step (pv : List Char → Option (Json × List Char)) (f : Nat)
    (input : List Char) :
    parseElemsF pv (f + 1) input =
      (match pv input with
       | none => none
       | some (v, r) =>
         match skipWs r with
         | [] => none
         | c :: r2 =>
           if c = ',' then
             match parseElemsF pv f r2 with
             | some (vs, r3) => some (v :: vs, r3)
             | none => none
           else if c = ']' then some ([v], r2)
           else none) := rfl

/-- One unfolding step of the field loop (definitional). -/
theorem parseFieldsF_step (pv : List Char → Option (Json × List Char)) (f : Nat)
    (input : List Char) :
    parseFieldsF pv (f + 1) input =
      (match skipWs input with
       | [] => none
       | q :: rest =>
         if q = '"' then
           match parseStringBody rest with
           | none => none
           | some (k, r) =>
             match skipWs r with
             | [] => none
             | c :: r2 =>
               if c = ':' then
                 match pv r2 with
                 | none => none
                 | some (v, r3) =>
                   match skipWs r3 with
                   | [] => none
                   | c2 :: r4 =>
                     if c2 = ',' then
                       match parseFieldsF pv f r4 with
                       | some (fs, r5) => some ((k, v) :: fs, r5)
                       | none => none
                     else if c2 = '}' then some ([(k, v)], r4)
                     else none
               else none
         else none) := rfl

theorem skipWs_comma (r : List Char) : skipWs (',' :: r) = ',' :: r := rfl

theorem skipWs_colon (r : List Char) : skipWs (':' :: r) = ':' :: r := rfl

theorem needVal_pos (v : Json) : 1 ≤ needVal v := by
  cases v <;> simp [needVal]

theorem length_le_needList : ∀ l : List Json, l.length ≤ needList l := by
  intro l
  induction l with
  | nil => simp [needList]
  | cons v vs ih =>
    simp only [needList, List.length_cons]
    omega

theorem needVal_le_needList {l : List Json} {w : Json} (h : w ∈ l) :
    needVal w ≤ needList l := by
  induction l with
  | nil => cases h
  | cons v vs ih =>
    rcases List.mem_cons.mp h with h1 | h2
    · subst h1; simp only [needList]; omega
    · have := ih h2; simp only [needList]; omega

theorem length_le_needPairs : ∀ l : List (List Char × Json), l.length ≤ needPairs l := by
  intro l
  induction l with
  | nil => simp [needPairs]
  | cons f fs ih =>
    simp only [needPairs, List.length_cons]
    omega

theorem needVal_le_needPairs {l : List (List Char × Json)} {p : List Char × Json}
    (h : p ∈ l) : needVal p.2 ≤ needPairs l := by
  induction l with
  | nil => cases h
  | cons f fs ih =>
    rcases List.mem_cons.mp h with h1 | h2
    · subst h1; simp only [needPairs]; omega
    · have := ih h2; simp only [needPairs]; omega

theorem natDigits_head (n : Nat) :
    ∃ c t, natDigits n = c :: t ∧ isDigitChar c = true := by
  obtain ⟨c, t, heq, hd⟩ := natDigitsAux_head (n + 1) n (by omega)
  exact ⟨c, t, heq, hd⟩

theorem renderInt_head (n : Int) :
    ∃ c t, renderInt n = c :: t ∧ isWsChar c = false ∧ ¬c = ']' ∧ ¬c = '}' := by
  unfold renderInt
  by_cases hneg : n < 0
  · rw [if_pos hneg]
    exact ⟨'-', natDigits n.natAbs, rfl, by decide, by decide, by decide⟩
  · rw [if_neg hneg]
    obtain ⟨c, t, heq, hd⟩ := natDigits_head n.toNat
    obtain ⟨_, _, _, _, _, _, _, h1, h2, hw⟩ := digit_not_special hd
    exact ⟨c, t, heq, hw, h1, h2⟩

theorem renderJson_head (v : Json) :
    ∃ c t, renderJson v = c :: t ∧ isWsChar c = false ∧ ¬c = ']' ∧ ¬c = '}' := by
  cases v with
  | null =>
    refine ⟨'n', ("ull").data, ?_, by decide, by decide, by decide⟩
    rw [show renderJson .null = ("null").data from by simp [renderJson]]
  | bool b =>
    cases b
    · refine ⟨'f', ("alse").data, ?_, by decide, by decide, by decide⟩
      rw [show renderJson (.bool false) = ("false").data from by simp [renderJson]]
    · refine ⟨'t', ("rue").data, ?_, by decide, by decide, by decide⟩
      rw [show renderJson (.bool true) = ("true").data from by simp [renderJson]]
  | num n =>
    obtain ⟨c, t, heq, hw, h1, h2⟩ := renderInt_head n
    refine ⟨c, t, ?_, hw, h1, h2⟩
    simp [renderJson, heq]
  | str s =>
    refine ⟨'"', s.flatMap escapeChar ++ ['"'], ?_, by decide, by decide, by decide⟩
    simp [renderJson, renderString]
  | arr vs =>
    cases vs with
    | nil =>
      refine ⟨'[', [']'], ?_, by decide, by decide, by decide⟩
      simp [renderJson]
    | cons w vs' =>
      refine ⟨'[', renderElems w vs' ++ [']'], ?_, by decide, by decide, by decide⟩
      simp [renderJson]
  | obj fs =>
    cases fs with
    | nil =>
      refine ⟨'{', ['}'], ?_, by decide, by decide, by decide⟩
      simp [renderJson]
    | cons f fs' =>
      refine ⟨'{', renderFields f fs' ++ ['}'], ?_, by decide, by decide, by decide⟩
      simp [renderJson]

theorem renderElems_head (v : Json) (vs : List Json) :
    ∃ c t, renderElems v vs = c :: t ∧ isWsChar c = false ∧ ¬c = ']' ∧ ¬c = '}' := by
  obtain ⟨c, t, heq, h1, h2, h3⟩ := renderJson_head v
  cases vs with
  | nil => exact ⟨c, t, by simp [renderElems, heq], h1, h2, h3⟩
  | cons w vs' =>
    exact ⟨c, t ++ ',' :: renderElems w vs', by simp [renderElems, heq], h1, h2, h3⟩

theorem renderFields_head (f : List Char × Json) (fs : List (List Char × Json)) :
    ∃ t, renderFields f fs = '"' :: t := by
  obtain ⟨k, v⟩ := f
  cases fs with
  | nil => exact ⟨k.flatMap escapeChar ++ ['"'] ++ ':' :: renderJson v,
      by simp [renderFields, renderString]⟩
  | cons f' fs' =>
    exact ⟨k.flatMap escapeChar ++ ['"'] ++ ':' :: renderJson v ++
        ',' :: renderFields f' fs',
      by simp [renderFields, renderString]⟩

/-- The element loop parses a rendered nonempty element list, given that
`pv` correctly parses each rendered element. -/
theorem parseElemsF_render (pv : List Char → Option (Json × List Char)) (K : Nat)
    (Hpv : ∀ w rest, needVal w ≤ K → numBoundary rest = true →
      pv (renderJson w ++ rest) = some (w, rest)) :
    ∀ efuel (v : Json) (vs : List Json) (rest : List Char),
      vs.length < efuel → (∀ w ∈ v :: vs, needVal w ≤ K) →
      parseElemsF pv efuel (renderElems v vs ++ ']' :: rest) = some (v :: vs, rest) := by
  intro efuel
  induction efuel with
  | zero => intro v vs rest h _; omega
  | succ efuel ih =>
    intro v vs rest hlen hmem
    cases vs with
    | nil =>
      have hre : renderElems v [] = renderJson v := by simp [renderElems]
      rw [hre, parseElemsF_step, Hpv v (']' :: rest) (hmem v (by simp)) rfl]
      rfl
    | cons w vs' =>
      have hre : (renderElems v (w :: vs') ++ ']' :: rest) =
          renderJson v ++ ',' :: (renderElems w vs' ++ ']' :: rest) := by
        simp [renderElems, List.append_assoc]
      rw [hre, parseElemsF_step,
        Hpv v (',' :: (renderElems w vs' ++ ']' :: rest)) (hmem v (by simp)) rfl]
      try simp only []
      rw [skipWs_comma]
      simp only [reduceIte]
      rw [ih w vs' rest (by simp only [List.length_cons] at hlen; omega)
        (fun x hx => hmem x (List.mem_cons_of_mem v hx))]

/-- The field loop parses a rendered nonempty field list, given that `pv`
correctly parses each rendered value. -/
theorem parseFieldsF_render (pv : List Char → Option (Json × List Char)) (K : Nat)
    (Hpv : ∀ w rest, needVal w ≤ K → numBoundary rest = true →
      pv (renderJson w ++ rest) = some (w, rest)) :
    ∀ ffuel (k : List Char) (v : Json) (fs : List (List Char × Json)) (rest : List Char),
      fs.length < ffuel → (∀ p ∈ (k, v) :: fs, needVal p.2 ≤ K) →
      parseFieldsF pv ffuel (renderFields (k, v) fs ++ '}' :: rest) =
        some ((k, v) :: fs, rest) := by
  intro ffuel
  induction ffuel with
  | zero => intro k v fs rest h _; omega
  | succ ffuel ih =>
    intro k v fs rest hlen hmem
    cases fs with
    | nil =>
      have hre : renderFields (k, v) [] ++ '}' :: rest =
          '"' :: (k.flatMap escapeChar ++ '"' :: (':' :: (renderJson v ++ '}' :: rest))) := by
        simp [renderFields, renderString, List.append_assoc]
      rw [hre, parseFieldsF_step]
      try simp only []
      rw [show skipWs ('"' :: (k.flatMap escapeChar ++ '"' ::
          (':' :: (renderJson v ++ '}' :: rest)))) =
        '"' :: (k.flatMap escapeChar ++ '"' :: (':' :: (renderJson v ++ '}' :: rest)))
        from rfl]
      simp only [reduceIte]
      rw [parseStringBody_escape]
      try simp only []
      rw [skipWs_colon]
      simp only [reduceIte]
      rw [Hpv v ('}' :: rest) (hmem (k, v) (by simp)) rfl]
      rfl
    | cons f' fs' =>
      have hre : renderFields (k, v) (f' :: fs') ++ '}' :: rest =
          '"' :: (k.flatMap escapeChar ++ '"' ::
            (':' :: (renderJson v ++ ',' :: (renderFields f' fs' ++ '}' :: rest)))) := by
        simp [renderFields, renderString, List.append_assoc]
      rw [hre, parseFieldsF_step]
      try simp only []
      rw [show skipWs ('"' :: (k.flatMap escapeChar ++ '"' ::
          (':' :: (renderJson v ++ ',' :: (renderFields f' fs' ++ '}' :: rest))))) =
        '"' :: (k.flatMap escapeChar ++ '"' ::
          (':' :: (renderJson v ++ ',' :: (renderFields f' fs' ++ '}' :: rest))))
        from rfl]
      simp only [reduceIte]
      rw [parseStringBody_escape]
      try simp only []
      rw [skipWs_colon]
      simp only [reduceIte]
      rw [Hpv v (',' :: (renderFields f' fs' ++ '}' :: rest)) (hmem (k, v) (by simp)) rfl]
      try simp only []
      rw [skipWs_comma]
      simp only [reduceIte]
      obtain ⟨k', v'⟩ := f'
      rw [ih k' v' fs' rest (by simp only [List.length_cons] at hlen; omega)
        (fun x hx => hmem x (List.mem_cons_of_mem (k, v) hx))]

/-- Parsing a rendered JSON value (followed by a non-digit boundary)
returns exactly the value, for any sufficient fuel. -/
theorem parseVal_render :
    ∀ fuel (v : Json) (rest : List Char), needVal v ≤ fuel → numBoundary rest = true →
      parseVal fuel (renderJson v ++ rest) = some (v, rest) := by
  intro fuel
  induction fuel with
  | zero => intro v rest h _; have := needVal_pos v; omega
  | succ fuel ih =>
    intro v rest hneed hrest
    cases v with
    | null =>
      rw [show renderJson .null = ("null").data from by simp [renderJson]]
      rfl
    | bool b =>
      cases b
      · rw [show renderJson (.bool false) = ("false").data from by simp [renderJson]]
        rfl
      · rw [show renderJson (.bool true) = ("true").data from by simp [renderJson]]
        rfl
    | num n =>
      rw [show renderJson (.num n) = renderInt n from by simp [renderJson]]
      unfold renderInt
      by_cases hneg : n < 0
      · rw [if_pos hneg, List.cons_append, parseVal_neg, parseNat_natDigits n.natAbs hrest]
        have hval : -(n.natAbs : Int) = n := by omega
        show some (Json.num (-(n.natAbs : Int)), rest) = some (Json.num n, rest)
        rw [hval]
      · rw [if_neg hneg]
        obtain ⟨c, t, heq, hd⟩ := natDigits_head n.toNat
        rw [heq, List.cons_append, parseVal_digit hd, ← List.cons_append, ← heq,
          parseNat_natDigits n.toNat hrest]
        have hval : (n.toNat : Int) = n := by omega
        show some (Json.num (n.toNat : Int), rest) = some (Json.num n, rest)
        rw [hval]
    | str s =>
      rw [show renderJson (.str s) ++ rest =
          '"' :: (s.flatMap escapeChar ++ '"' :: rest) from by
        simp [renderJson, renderString, List.append_assoc]]
      rw [parseVal_quote, parseStringBody_escape]
    | arr vs =>
      cases vs with
      | nil =>
        rw [show renderJson (.arr []) = ['[', ']'] from by simp [renderJson]]
        rfl
      | cons w vs' =>
        have hneed' : needList (w :: vs') ≤ fuel := by
          have : needVal (.arr (w :: vs')) = 1 + needList (w :: vs') := by simp [needVal]
          omega
        rw [show renderJson (.arr (w :: vs')) ++ rest =
            '[' :: (renderElems w vs' ++ ']' :: rest) from by
          simp [renderJson, List.append_assoc]]
        rw [parseVal_lbrack]
        obtain ⟨c, t, heq, hws, hbr, _⟩ := renderElems_head w vs'
        rw [heq, List.cons_append, skipWs_cons_of hws]
        simp only []
        rw [if_neg hbr, ← List.cons_append, ← heq]
        rw [parseElemsF_render (parseVal fuel) fuel ih fuel w vs' rest
          (by have h1 := length_le_needList (w :: vs')
              simp only [List.length_cons] at h1 ⊢
              omega)
          (fun x hx => le_trans (needVal_le_needList hx) hneed')]
    | obj fs =>
      cases fs with
      | nil =>
        rw [show renderJson (.obj []) = ['{', '}'] from by simp [renderJson]]
        rfl
      | cons f fs' =>
        have hneed' : needPairs (f :: fs') ≤ fuel := by
          have : needVal (.obj (f :: fs')) = 1 + needPairs (f :: fs') := by simp [needVal]
          omega
        rw [show renderJson (.obj (f :: fs')) ++ rest =
            '{' :: (renderFields f fs' ++ '}' :: rest) from by
          simp [renderJson, List.append_assoc]]
        rw [parseVal_lbrace]
        obtain ⟨t, heq⟩ := renderFields_head f fs'
        rw [heq, List.cons_append]
        rw [show skipWs ('"' :: (t ++ '}' :: rest)) = '"' :: (t ++ '}' :: rest) from rfl]
        simp only [reduceIte]
        rw [← List.cons_append, ← heq]
        obtain ⟨k, v⟩ := f
        rw [parseFieldsF_render (parseVal fuel) fuel ih fuel k v fs' rest
          (by have h1 := length_le_needPairs ((k, v) :: fs')
              simp only [List.length_cons] at h1 ⊢
              omega)
          (fun x hx => le_trans (needVal_le_needPairs hx) hneed')]
        rfl

theorem needList_le_renderElems :
    ∀ (vs : List Json) (v : Json), (∀ w ∈ v :: vs, needVal w ≤ (renderJson w).length) →
      needList (v :: vs) ≤ (renderElems v vs).length + 1 := by
  intro vs
  induction vs with
  | nil =>
    intro v H
    have h1 := H v (by simp)
    have e1 : needList [v] = 1 + needVal v + needList [] := by simp [needList]
    have e2 : needList ([] : List Json) = 0 := by simp [needList]
    have e3 : renderElems v [] = renderJson v := by simp [renderElems]
    rw [e1, e2, e3]
    omega
  | cons w vs' ih =>
    intro v H
    have h1 := H v (by simp)
    have h2 := ih w (fun x hx => H x (List.mem_cons_of_mem v hx))
    have e1 : needList (v :: w :: vs') = 1 + needVal v + needList (w :: vs') := by
      simp [needList]
    have e3 : (renderElems v (w :: vs')).length =
        (renderJson v).length + 1 + (renderElems w vs').length := by
      simp [renderElems]
      omega
    rw [e1, e3]
    omega

theorem needPairs_le_renderFields :
    ∀ (fs : List (List Char × Json)) (f : List Char × Json),
      (∀ p ∈ f :: fs, needVal p.2 ≤ (renderJson p.2).length) →
      needPairs (f :: fs) ≤ (renderFields f fs).length + 1 := by
  intro fs
  induction fs with
  | nil =>
    intro f H
    obtain ⟨k, v⟩ := f
    have h1 := H (k, v) (by simp)
    have e1 : needPairs [(k, v)] = 1 + needVal v := by simp [needPairs]
    have e3 : (renderFields (k, v) []).length =
        (renderString k).length + 1 + (renderJson v).length := by
      simp [renderFields]
      omega
    rw [e1, e3]
    simp only at h1
    omega
  | cons f' fs' ih =>
    intro f H
    obtain ⟨k, v⟩ := f
    have h1 := H (k, v) (by simp)
    have h2 := ih f' (fun x hx => H x (List.mem_cons_of_mem (k, v) hx))
    have e1 : needPairs ((k, v) :: f' :: fs') = 1 + needVal v + needPairs (f' :: fs') := by
      simp [needPairs]
    have e3 : (renderFields (k, v) (f' :: fs')).length =
        (renderString k).length + 1 + (renderJson v).length + 1 +
          (renderFields f' fs').length := by
      simp [renderFields]
      omega
    rw [e1, e3]
    simp only at h1
    omega

/-- The fuel `needVal v` is bounded by the rendered length, so the
top-level fuel `input.length + 1` always suffices for parsing back. -/
theorem needVal_le_renderLen (v : Json) : needVal v ≤ (renderJson v).length := by
  have main : ∀ N (w : Json), needVal w ≤ N → needVal w ≤ (renderJson w).length := by
    intro N
    induction N with
    | zero => intro w h; have := needVal_pos w; omega
    | succ N ihN =>
      intro w hw
      cases w with
      | null => simp [needVal, renderJson]
      | bool b => cases b <;> simp [needVal, renderJson]
      | num n =>
        obtain ⟨c, t, heq, _, _, _⟩ := renderInt_head n
        have : renderJson (.num n) = renderInt n := by simp [renderJson]
        rw [this, heq]
        simp [needVal]
      | str s =>
        simp [needVal, renderJson, renderString]
      | arr vs =>
        cases vs with
        | nil => simp [needVal, needList, renderJson]
        | cons x xs =>
          have hne : needVal (.arr (x :: xs)) = 1 + needList (x :: xs) := by
            simp [needVal]
          have hsub : needList (x :: xs) ≤ N := by omega
          have H : ∀ y ∈ x :: xs, needVal y ≤ (renderJson y).length := by
            intro y hy
            exact ihN y (le_trans (needVal_le_needList hy) hsub)
          have h2 := needList_le_renderElems xs x H
          have h3 : (renderJson (.arr (x :: xs))).length =
              (renderElems x xs).length + 2 := by
            simp [renderJson]
          rw [hne, h3]
          omega
      | obj fs =>
        cases fs with
        | nil => simp [needVal, needPairs, renderJson]
        | cons p ps =>
          have hne : needVal (.obj (p :: ps)) = 1 + needPairs (p :: ps) := by
            simp [needVal]
          have hsub : needPairs (p :: ps) ≤ N := by omega
          have H : ∀ q ∈ p :: ps, needVal q.2 ≤ (renderJson q.2).length := by
            intro q hq
            exact ihN q.2 (le_trans (needVal_le_needPairs hq) hsub)
          have h2 := needPairs_le_renderFields ps p H
          have h3 : (renderJson (.obj (p :: ps))).length =
              (renderFields p ps).length + 2 := by
            simp [renderJson]
          rw [hne, h3]
          omega
  exact main (needVal v) v le_rfl

/-- Top-level JSON round trip: parsing a compactly rendered value yields
exactly that value. -/
theorem parseJsonTop_render (v : Json) : parseJsonTop (renderJson v) = some v := by
  unfold parseJsonTop
  have h := parseVal_render ((renderJson v).length + 1) v []
    (by have := needVal_le_renderLen v; omega) rfl
  rw [List.append_nil] at h
  rw [h]
  rfl



/-! Section: claim theorems -/

/-- C4: Round-trip law: for every `IpcMessage` envelope wrapping a
`Command` — all `CommandType` values, with and without params, with and
without profile — `serialize_message` followed by stripping the trailing
delimiter and `deserialize_message` yields an envelope equal to the
original in all fields. -/
theorem claim_C4_roundtrip_law (cmd : Command) :
    deserialize_message
        ((serialize_message
            { message_type := .command, payload := some (commandToJson cmd) }).dropLast) =
      .ok { message_type := .command, payload := some (commandToJson cmd) } := by
  have hdrop : ∀ l : List Char, (l ++ [MESSAGE_DELIMITER]).dropLast = l := by
    intro l
    simp
  unfold serialize_message
  rw [hdrop]
  unfold deserialize_message
  rw [parseJsonTop_render]
  rfl

theorem mem_of_getLast?_eq {l : List Char} {a : Char} (h : l.getLast? = some a) :
    a ∈ l := by
  cases l with
  | nil => simp at h
  | cons c r =>
    have hne : (c :: r) ≠ [] := by simp
    rw [List.getLast?_eq_getLast_of_ne_nil hne] at h
    have hmem := List.getLast_mem hne
    rw [Option.some.inj h] at hmem
    exact hmem

theorem take_through_delim_no_delim {s : List Char} (h : MESSAGE_DELIMITER ∉ s) :
    take_through_delim s = s := by
  induction s with
  | nil => rfl
  | cons c r ih =>
    have hc : ¬c = MESSAGE_DELIMITER := by
      intro hc
      exact h (hc ▸ List.mem_cons_self c r)
    rw [take_through_delim, if_neg hc, ih (fun hm => h (List.mem_cons_of_mem c hm))]

theorem take_through_delim_split {pre : List Char} (post : List Char)
    (h : MESSAGE_DELIMITER ∉ pre) :
    take_through_delim (pre ++ MESSAGE_DELIMITER :: post) = pre ++ [MESSAGE_DELIMITER] := by
  induction pre with
  | nil =>
    rw [List.nil_append, take_through_delim, if_pos rfl]
    rfl
  | cons c r ih =>
    have hc : ¬c = MESSAGE_DELIMITER := by
      intro hc
      exact h (hc ▸ List.mem_cons_self c r)
    rw [List.cons_append, take_through_delim, if_neg hc,
      ih (fun hm => h (List.mem_cons_of_mem c hm)), List.cons_append]

/-- C5: Frame reading: zero bytes before any terminator is
`ProtocolError("empty response")`; a stream that ends before a
terminator is seen is also a `ProtocolError`; otherwise the returned
bytes are exactly those before the first terminator, with the terminator
stripped. -/
theorem claim_C5_read_message :
    read_message [] = .error (.ProtocolError ("empty response")) ∧
    (∀ s : List Char, s ≠ [] → MESSAGE_DELIMITER ∉ s →
      read_message s = .error (.ProtocolError ("missing message delimiter"))) ∧
    (∀ pre post : List Char, MESSAGE_DELIMITER ∉ pre →
      read_message (pre ++ MESSAGE_DELIMITER :: post) = .ok pre) := by
  refine ⟨rfl, ?_, ?_⟩
  · intro s hne hnot
    unfold read_message
    rw [take_through_delim_no_delim hnot]
    rw [if_neg (by simpa using hne)]
    rw [if_pos]
    intro hlast
    exact hnot (mem_of_getLast?_eq hlast)
  · intro pre post hnot
    unfold read_message
    rw [take_through_delim_split post hnot]
    rw [if_neg (by simp)]
    rw [if_neg (by simp [List.getLast?_concat])]
    simp

/-- C5 witness: concrete frames exercising each branch. -/
theorem claim_C5_read_message_witness :
    read_message [] = .error (.ProtocolError ("empty response")) ∧
    read_message ['h', 'i'] = .error (.ProtocolError ("missing message delimiter")) ∧
    read_message ['h', 'i', MESSAGE_DELIMITER, 'x'] = .ok ['h', 'i'] :=
  ⟨claim_C5_read_message.1,
   claim_C5_read_message.2.1 ['h', 'i'] (by decide) (by decide),
   claim_C5_read_message.2.2 ['h', 'i'] ['x'] (by decide)⟩

/-- C6: `connect_to_daemon` (unix): a missing socket path yields
`DaemonNotRunning` and the OS connection attempt is never consulted; an
existing path with a failing attempt yields `ConnectionFailed`; success
yields a stream with both read and write timeouts set. -/
theorem claim_C6_connect (connect_os connect_os' : Except String IpcStream)
    (timeout : Nat) (path : String) :
    (connect_to_daemon false connect_os timeout path =
        .error (.DaemonNotRunning ("socket not found at " ++ path)) ∧
      connect_to_daemon false connect_os timeout path =
        connect_to_daemon false connect_os' timeout path) ∧
    (∀ err, connect_to_daemon true (.error err) timeout path =
      .error (.ConnectionFailed err)) ∧
    (∀ st, connect_to_daemon true (.ok st) timeout path =
      .ok { read_timeout := some timeout, write_timeout := some timeout }) :=
  ⟨⟨rfl, rfl⟩, fun _ => rfl, fun _ => rfl⟩

/-- C7: `deserialize_message` is total on arbitrary byte input (it is a
plain function into `Except`, so it cannot panic), and returns a
serialization error whenever the bytes do not parse as JSON, or the
discriminant field is missing, or it is not one of the four known
kinds. -/
theorem claim_C7_decode_malformed (s : List Char) :
    (parseJsonTop s = none →
      deserialize_message s = .error (.SerializationError ("invalid JSON"))) ∧
    (∀ fields, parseJsonTop s = some (.obj fields) →
      lookupField fields ("type".data) = none →
      deserialize_message s = .error (.SerializationError ("missing field type"))) ∧
    (∀ fields ts, parseJsonTop s = some (.obj fields) →
      lookupField fields ("type".data) = some (.str ts) → kindOfStr ts = none →
      deserialize_message s =
        .error (.SerializationError ("unknown variant of type field"))) := by
  refine ⟨?_, ?_, ?_⟩
  · intro hp
    unfold deserialize_message
    rw [hp]
  · intro fields hp hl
    unfold deserialize_message
    rw [hp]
    show (match lookupField fields ("type".data) with
          | some (Json.str s2) =>
            match kindOfStr s2 with
            | some k =>
              Except.ok (⟨k, payloadOpt (lookupField fields ("payload".data))⟩ : IpcMessage)
            | none =>
              Except.error (CliError.SerializationError ("unknown variant of type field"))
          | some _ =>
            Except.error (CliError.SerializationError ("type field is not a string"))
          | none =>
            Except.error (CliError.SerializationError ("missing field type"))) = _
    rw [hl]
  · intro fields ts hp hl hk
    unfold deserialize_message
    rw [hp]
    show (match lookupField fields ("type".data) with
          | some (Json.str s2) =>
            match kindOfStr s2 with
            | some k =>
              Except.ok (⟨k, payloadOpt (lookupField fields ("payload".data))⟩ : IpcMessage)
            | none =>
              Except.error (CliError.SerializationError ("unknown variant of type field"))
          | some _ =>
            Except.error (CliError.SerializationError ("type field is not a string"))
          | none =>
            Except.error (CliError.SerializationError ("missing field type"))) = _
    rw [hl]
    show (match kindOfStr ts with
          | some k =>
            Except.ok (⟨k, payloadOpt (lookupField fields ("payload".data))⟩ : IpcMessage)
          | none =>
            Except.error (CliError.SerializationError ("unknown variant of type field"))) = _
    rw [hk]

/-- C7 witness: a non-JSON input, an object with no discriminant, and an
object with an unknown discriminant. -/
theorem claim_C7_decode_malformed_witness :
    deserialize_message ['x'] = .error (.SerializationError ("invalid JSON")) ∧
    deserialize_message ("\x7b\x7d").data =
      .error (.SerializationError ("missing field type")) ∧
    deserialize_message ("\x7b\"type\":\"nope\"\x7d").data =
      .error (.SerializationError ("unknown variant of type field")) :=
  ⟨(claim_C7_decode_malformed ['x']).1 rfl,
   (claim_C7_decode_malformed (("\x7b\x7d").data)).2.1 [] rfl rfl,
   (claim_C7_decode_malformed (("\x7b\"type\":\"nope\"\x7d").data)).2.2
     [("type".data, .str ("nope".data))] ("nope".data) rfl rfl rfl⟩

/-- Reduction law: `send_command` with a successful connect and write reduces to the
reply-processing chain (definitional). -/
theorem send_command_reduce (config : Config) (st : IpcStream) (reply : List Char)
    (cmd : Command) :
    send_command config true (.ok st) (.ok ()) (.ok reply) cmd =
      (match read_message reply with
       | .error e => .error e
       | .ok response_bytes =>
         match deserialize_message response_bytes with
         | .error e => .error e
         | .ok response =>
           if ¬(response.message_type = IpcMessageType.response) then
             .error (.ProtocolError ("unexpected response type"))
           else
             match response.payload with
             | none => .error (.ProtocolError ("missing response payload"))
             | some payload => commandResponseFromJson payload) := rfl

/-- C3: `send_command` on a decoded reply envelope: a non-`response`
kind is `ProtocolError("unexpected response type")`; a `response` kind
with no payload is the missing-payload `ProtocolError`; otherwise the
result is exactly the deserialization of the payload, with no
success/failure interpretation applied. -/
theorem claim_C3_exchange_reply (config : Config) (st : IpcStream)
    (reply bytes : List Char) (cmd : Command) (env : IpcMessage)
    (hread : read_message reply = .ok bytes)
    (hdec : deserialize_message bytes = .ok env) :
    (¬env.message_type = .response →
      send_command config true (.ok st) (.ok ()) (.ok reply) cmd =
        .error (.ProtocolError ("unexpected response type"))) ∧
    (env.message_type = .response → env.payload = none →
      send_command config true (.ok st) (.ok ()) (.ok reply) cmd =
        .error (.ProtocolError ("missing response payload"))) ∧
    (∀ p, env.message_type = .response → env.payload = some p →
      send_command config true (.ok st) (.ok ()) (.ok reply) cmd =
        commandResponseFromJson p) := by
  have hred : send_command config true (.ok st) (.ok ()) (.ok reply) cmd =
      (if ¬(env.message_type = .response) then
         Except.error (CliError.ProtocolError ("unexpected response type"))
       else
         match env.payload with
         | none => Except.error (CliError.ProtocolError ("missing response payload"))
         | some payload => commandResponseFromJson payload) := by
    rw [send_command_reduce, hread]
    show (match deserialize_message bytes with
          | .error e => Except.error e
          | .ok response =>
            if ¬(response.message_type = IpcMessageType.response) then
              Except.error (CliError.ProtocolError ("unexpected response type"))
            else
              match response.payload with
              | none => Except.error (CliError.ProtocolError ("missing response payload"))
              | some payload => commandResponseFromJson payload) = _
    rw [hdec]
  refine ⟨fun h => ?_, fun h hp => ?_, fun p h hp => ?_⟩
  · rw [hred, if_pos h]
  · rw [hred, if_neg (fun hn => hn h), hp]
  · rw [hred, if_neg (fun hn => hn h), hp]

/-- C3 witness: a peer replying with a `ping`-kind envelope makes the
exchange fail with `ProtocolError("unexpected response type")`. -/
theorem claim_C3_exchange_reply_witness :
    send_command cfg0 true (.ok stream0) (.ok ()) (.ok replyPing) cmd0 =
      .error (.ProtocolError ("unexpected response type")) :=
  (claim_C3_exchange_reply cfg0 stream0 replyPing replyPing.dropLast cmd0
    ⟨.ping, none⟩ rfl rfl).1 (by decide)

/-- Reduction law: `is_daemon_running` with an existing socket, a successful connect
and write, and delivered reply bytes reduces to the reply-processing
chain (definitional). -/
theorem is_daemon_running_reduce (config : Config) (st : IpcStream) (raw : List Char) :
    is_daemon_running config true (.ok st) (.ok ()) (.ok raw) =
      (match (match read_message raw with
              | .error e => Except.error e
              | .ok response_bytes =>
                match deserialize_message response_bytes with
                | .error e => Except.error e
                | .ok response =>
                  Except.ok (decide (response.message_type = IpcMessageType.pong))) with
       | .ok b => b
       | .error _ => false) := rfl

/-- C2: the liveness probe (`is_daemon_running`, which wraps
`IpcClient::ping` with `unwrap_or(false)`) is a plain boolean: it is
`true` exactly when the socket exists, the connection and write succeed,
and the framed reply decodes to a pong-kind envelope; on any failure
(socket absent, connect error, write error, read error, framing error,
malformed reply, wrong kind) it is `false` rather than an error. -/
theorem claim_C2_probe_boolean (config : Config) (socket_exists : Bool)
    (connect_os : Except String IpcStream) (write_os : Except String Unit)
    (read_os : Except String (List Char)) :
    is_daemon_running config socket_exists connect_os write_os read_os = true ↔
      (socket_exists = true ∧ (∃ st, connect_os = .ok st) ∧ write_os = .ok () ∧
        ∃ raw bytes env, read_os = .ok raw ∧ read_message raw = .ok bytes ∧
          deserialize_message bytes = .ok env ∧ env.message_type = .pong) := by
  constructor
  · intro h
    cases socket_exists with
    | false => exact Bool.noConfusion h
    | true =>
      cases connect_os with
      | error e => exact Bool.noConfusion h
      | ok st =>
        cases write_os with
        | error we => exact Bool.noConfusion h
        | ok u =>
          cases u
          cases read_os with
          | error re => exact Bool.noConfusion h
          | ok raw =>
            rw [is_daemon_running_reduce] at h
            cases hrm : read_message raw with
            | error e => rw [hrm] at h; exact Bool.noConfusion h
            | ok bytes =>
              rw [hrm] at h
              have h2 : (match (match deserialize_message bytes with
                               | Except.error e => Except.error e
                               | Except.ok response =>
                                 Except.ok
                                   (decide (response.message_type = IpcMessageType.pong)))
                          with
                         | Except.ok b => b
                         | Except.error _ => false) = true := h
              cases hdm : deserialize_message bytes with
              | error e => rw [hdm] at h2; exact Bool.noConfusion h2
              | ok env =>
                rw [hdm] at h2
                have hmt : env.message_type = .pong := of_decide_eq_true h2
                exact ⟨rfl, ⟨st, rfl⟩, rfl, raw, bytes, env, rfl, hrm, hdm, hmt⟩
  · rintro ⟨hse, ⟨st, hc⟩, hw, raw, bytes, env, hr, hrm, hdm, hmt⟩
    subst hse
    subst hc
    subst hw
    subst hr
    rw [is_daemon_running_reduce, hrm]
    show (match (match deserialize_message bytes with
                 | .error e => Except.error e
                 | .ok response =>
                   Except.ok (decide (response.message_type = IpcMessageType.pong))) with
          | .ok b => b
          | .error _ => false) = true
    rw [hdm]
    show decide (env.message_type = IpcMessageType.pong) = true
    rw [hmt]
    decide

/-- C2 witness: a pre-bound listener answering pong makes the probe
return `true`; a missing socket makes it return `false`. -/
theorem claim_C2_probe_boolean_witness :
    is_daemon_running cfg0 true (.ok stream0) (.ok ()) (.ok replyPong) = true ∧
    is_daemon_running cfg0 false (.ok stream0) (.ok ()) (.ok replyPong) = false := by
  constructor
  · exact (claim_C2_probe_boolean cfg0 true (.ok stream0) (.ok ()) (.ok replyPong)).mpr
      ⟨rfl, ⟨stream0, rfl⟩, rfl, replyPong, replyPong.dropLast, ⟨.pong, none⟩,
        rfl, rfl, rfl, rfl⟩
  · have h := (claim_C2_probe_boolean cfg0 false (.ok stream0) (.ok ()) (.ok replyPong))
    cases hb : is_daemon_running cfg0 false (.ok stream0) (.ok ()) (.ok replyPong) with
    | false => rfl
    | true => exact absurd (h.mp hb).1 (by decide)

theorem waitAux_zero_eq (probe : Nat → Bool) (k : Nat) :
    waitAux probe 0 k =
      .error (.DaemonNotRunning ("daemon failed to start within timeout")) := rfl

theorem waitAux_step (probe : Nat → Bool) (f k : Nat) :
    waitAux probe (f + 1) k =
      (if DAEMON_POLL_INTERVAL_MS * k > DAEMON_STARTUP_TIMEOUT_MS then
         Except.error (CliError.DaemonNotRunning ("daemon failed to start within timeout"))
       else if probe k then Except.ok ()
       else waitAux probe f (k + 1)) := rfl

/-- The fuel passed by `wait_for_daemon_ready` is irrelevant: any fuel
large enough that the deadline check fires first gives the same result,
so the fuel is a proof device, not a semantic change to the loop. -/
theorem waitAux_fuel_irrel (probe : Nat → Bool) :
    ∀ fuel fuel' k, 102 ≤ k + fuel → 102 ≤ k + fuel' →
      waitAux probe fuel k = waitAux probe fuel' k := by
  intro fuel
  induction fuel with
  | zero =>
    intro fuel' k h h'
    cases fuel' with
    | zero => rfl
    | succ f' =>
      rw [waitAux_zero_eq, waitAux_step,
        if_pos (by unfold DAEMON_POLL_INTERVAL_MS DAEMON_STARTUP_TIMEOUT_MS; omega)]
  | succ f ih =>
    intro fuel' k h h'
    cases fuel' with
    | zero =>
      rw [waitAux_zero_eq, waitAux_step,
        if_pos (by unfold DAEMON_POLL_INTERVAL_MS DAEMON_STARTUP_TIMEOUT_MS; omega)]
    | succ f' =>
      rw [waitAux_step, waitAux_step]
      by_cases ht : DAEMON_POLL_INTERVAL_MS * k > DAEMON_STARTUP_TIMEOUT_MS
      · rw [if_pos ht, if_pos ht]
      · rw [if_neg ht, if_neg ht]
        by_cases hp : probe k
        · rw [if_pos hp, if_pos hp]
        · rw [if_neg hp, if_neg hp]
          exact ih f' (k + 1) (by omega) (by omega)

theorem waitAux_all_false {probe : Nat → Bool} (hp : ∀ k, probe k = false) :
    ∀ fuel k, waitAux probe fuel k =
      .error (.DaemonNotRunning ("daemon failed to start within timeout")) := by
  intro fuel
  induction fuel with
  | zero => intro k; rfl
  | succ f ih =>
    intro k
    rw [waitAux_step]
    by_cases ht : DAEMON_POLL_INTERVAL_MS * k > DAEMON_STARTUP_TIMEOUT_MS
    · rw [if_pos ht]
    · rw [if_neg ht, hp k]
      show (if false = true then Except.ok () else waitAux probe f (k + 1)) = _
      rw [if_neg (by decide)]
      exact ih (k + 1)

/-- C1: `ensure_daemon_running`: a successful initial probe returns `Ok`
without any spawn attempt; if the probe never succeeds, at most one
spawn is attempted and, once the 10s deadline (polled at 100ms) elapses,
the result is `DaemonNotRunning("daemon failed to start within
timeout")` rather than an endless loop. -/
theorem claim_C1_ensure_daemon (probe : Nat → Bool) (spawn : Except CliError Unit) :
    (probe 0 = true →
      ensure_daemon_running probe spawn = { result := .ok (), spawn_attempts := 0 }) ∧
    ((∀ k, probe k = false) →
      (ensure_daemon_running probe spawn).spawn_attempts ≤ 1 ∧
      (spawn = .ok () →
        (ensure_daemon_running probe spawn).result =
          .error (.DaemonNotRunning ("daemon failed to start within timeout")))) := by
  constructor
  · intro h0
    unfold ensure_daemon_running
    rw [h0]
    rfl
  · intro hall
    unfold ensure_daemon_running
    rw [hall 0]
    show ((if false = true then _ else _ : EnsureOutcome)).spawn_attempts ≤ 1 ∧ _
    rw [if_neg (by decide)]
    cases spawn with
    | error e =>
      exact ⟨Nat.le_refl 1, fun hcontra => Except.noConfusion hcontra⟩
    | ok u =>
      cases u
      refine ⟨Nat.le_refl 1, fun _ => ?_⟩
      show wait_for_daemon_ready (fun k => probe (k + 1)) = _
      unfold wait_for_daemon_ready
      exact waitAux_all_false (fun k => hall (k + 1)) _ 0

/-- C1 witness: an immediately-alive daemon is never spawned; a daemon
that never answers produces the timeout error after one spawn. -/
theorem claim_C1_ensure_daemon_witness :
    ensure_daemon_running (fun _ => true) (.ok ()) =
      { result := .ok (), spawn_attempts := 0 } ∧
    (ensure_daemon_running (fun _ => false) (.ok ())).spawn_attempts ≤ 1 ∧
    (ensure_daemon_running (fun _ => false) (.ok ())).result =
      .error (.DaemonNotRunning ("daemon failed to start within timeout")) :=
  ⟨(claim_C1_ensure_daemon (fun _ => true) (.ok ())).1 rfl,
   ((claim_C1_ensure_daemon (fun _ => false) (.ok ())).2 (fun _ => rfl)).1,
   ((claim_C1_ensure_daemon (fun _ => false) (.ok ())).2 (fun _ => rfl)).2 rfl⟩

/-- C8: params normalization in `CommandBuilder::build`: an empty-object
params value becomes `None` and the `params` key is omitted entirely
from the wire form; every other params value is passed through
unchanged. -/
theorem claim_C8_params_normalization (session_id : String) (profile : Option String)
    (fresh_id now : String) (ct : CommandType) (params : Json) :
    (params = .obj [] →
      (CommandBuilder.build session_id profile fresh_id now ct params).params = none ∧
      ¬("params".data ∈ objKeys (commandToJson
        (CommandBuilder.build session_id profile fresh_id now ct params)))) ∧
    (¬params = .obj [] →
      (CommandBuilder.build session_id profile fresh_id now ct params).params =
        some params) := by
  constructor
  · intro hp
    subst hp
    refine ⟨rfl, ?_⟩
    cases profile with
    | none =>
      have hkeys : objKeys (commandToJson
          (CommandBuilder.build session_id none fresh_id now ct (.obj []))) =
          ["id".data, "sessionId".data, "type".data, "timestamp".data] := rfl
      rw [hkeys]
      decide
    | some p =>
      have hkeys : objKeys (commandToJson
          (CommandBuilder.build session_id (some p) fresh_id now ct (.obj []))) =
          ["id".data, "sessionId".data, "profile".data, "type".data,
            "timestamp".data] := rfl
      rw [hkeys]
      decide
  · intro hp
    have hcond : (params.is_object &&
        (params.as_object.elim true fun o => o.isEmpty)) = false := by
      cases params with
      | obj fields =>
        cases fields with
        | nil => exact absurd rfl hp
        | cons f fs => simp [Json.is_object, Json.as_object]
      | null => rfl
      | bool b => rfl
      | num n => rfl
      | str s => rfl
      | arr es => rfl
    show (if (params.is_object && (params.as_object.elim true fun o => o.isEmpty)) = true
          then none else some params) = some params
    rw [hcond]
    rfl

/-- C8 witness: the empty object is dropped from the command and its
wire form; a non-object value passes through. -/
theorem claim_C8_params_normalization_witness :
    (CommandBuilder.build ("s") none ("id0") "t0" .Navigate (.obj [])).params = none ∧
    ¬("params".data ∈ objKeys (commandToJson
      (CommandBuilder.build ("s") none ("id0") "t0" .Navigate (.obj [])))) ∧
    (CommandBuilder.build ("s") none ("id0") "t0" .Navigate .null).params = some .null :=
  ⟨((claim_C8_params_normalization ("s") none ("id0") "t0" .Navigate (.obj [])).1 rfl).1,
   ((claim_C8_params_normalization ("s") none ("id0") "t0" .Navigate (.obj [])).1 rfl).2,
   (claim_C8_params_normalization ("s") none ("id0") "t0" .Navigate .null).2
     (fun h => Json.noConfusion h)⟩

/-- C9 counterexample: the claim "every CommandResponse handed to the
caller satisfies exactly one of data-bearing success and error-bearing
failure" is false on the code: `send_command` deserializes and returns
the daemon's payload unchecked, so a reply with `success:true` plus both
`data` and `error` populated is handed to the caller as-is. -/
theorem claim_C9_response_invariant_counterexample :
    send_command cfg0 true (.ok stream0) (.ok ()) (.ok replyBoth) cmd0 =
      .ok { id := "cmd-1", success := true, data := some (.obj []),
            error := some ("boom") } ∧
    ¬responseInvariant
      { id := "cmd-1", success := true, data := some (.obj []), error := some ("boom") } := by
  constructor
  · rfl
  · intro hinv
    rcases hinv with ⟨_, _, he⟩ | ⟨hs, _, _⟩
    · exact Option.noConfusion he
    · exact Bool.noConfusion hs

/-- C9 (amended): `send_command` applies no success/data/error
consistency check: whatever `CommandResponse` the reply payload
deserializes to is returned to the caller unmodified, whether or not it
satisfies the exactly-one-of invariant. -/
theorem claim_C9_response_returned_unchecked (config : Config) (st : IpcStream)
    (reply bytes : List Char) (cmd : Command) (env : IpcMessage) (p : Json)
    (resp : CommandResponse)
    (hread : read_message reply = .ok bytes) (hdec : deserialize_message bytes = .ok env)
    (hmt : env.message_type = .response) (hp : env.payload = some p)
    (hr : commandResponseFromJson p = .ok resp) :
    send_command config true (.ok st) (.ok ()) (.ok reply) cmd = .ok resp := by
  rw [send_command_reduce, hread]
  show (match deserialize_message bytes with
        | .error e => Except.error e
        | .ok response =>
          if ¬(response.message_type = IpcMessageType.response) then
            Except.error (CliError.ProtocolError ("unexpected response type"))
          else
            match response.payload with
            | none => Except.error (CliError.ProtocolError ("missing response payload"))
            | some payload => commandResponseFromJson payload) = _
  rw [hdec]
  show (if ¬(env.message_type = IpcMessageType.response) then
          Except.error (CliError.ProtocolError ("unexpected response type"))
        else
          match env.payload with
          | none => Except.error (CliError.ProtocolError ("missing response payload"))
          | some payload => commandResponseFromJson payload) = _
  rw [if_neg (fun hn => hn hmt), hp]
  exact hr

/-- C9 (amended) witness: the invariant-violating reply reaches the
caller unmodified. -/
theorem claim_C9_response_returned_unchecked_witness :
    send_command cfg0 true (.ok stream0) (.ok ()) (.ok replyBoth) cmd0 =
      .ok { id := "cmd-1", success := true, data := some (.obj []),
            error := some ("boom") } :=
  claim_C9_response_returned_unchecked cfg0 stream0 replyBoth replyBoth.dropLast cmd0
    ⟨.response, some (.obj [("id".data, .str ("cmd-1".data)),
        ("success".data, .bool true), ("data".data, .obj []),
        ("error".data, .str ("boom".data))])⟩
    (.obj [("id".data, .str ("cmd-1".data)), ("success".data, .bool true),
        ("data".data, .obj []), ("error".data, .str ("boom".data))])
    { id := "cmd-1", success := true, data := some (.obj []), error := some ("boom") }
    rfl rfl rfl rfl rfl

/-- C10: session and profile resolution is a pure function of the three
optional inputs with precedence explicit flag, then environment
variable, then compiled-in default (`None` for the profile). -/
theorem claim_C10_resolution (default_session : String)
    (explicit env_session explicit_p env_profile : Option String) :
    (∀ s, explicit = some s →
      resolve_session_id default_session explicit env_session = s) ∧
    (explicit = none → ∀ s, env_session = some s →
      resolve_session_id default_session explicit env_session = s) ∧
    (explicit = none → env_session = none →
      resolve_session_id default_session explicit env_session = default_session) ∧
    (∀ p, explicit_p = some p → resolve_profile explicit_p env_profile = some p) ∧
    (explicit_p = none → ∀ p, env_profile = some p →
      resolve_profile explicit_p env_profile = some p) ∧
    (explicit_p = none → env_profile = none →
      resolve_profile explicit_p env_profile = none) := by
  refine ⟨?_, ?_, ?_, ?_, ?_, ?_⟩ <;> (intros; subst_vars; rfl)

/-- C10 witness: each precedence case at concrete inputs. -/
theorem claim_C10_resolution_witness :
    resolve_session_id ("default") (some ("flag")) (some ("env")) = "flag" ∧
    resolve_session_id ("default") none (some ("env")) = "env" ∧
    resolve_session_id ("default") none none = "default" ∧
    resolve_profile (some ("p")) (some ("q")) = some ("p") ∧
    resolve_profile none (some ("q")) = some ("q") ∧
    resolve_profile none none = none :=
  ⟨(claim_C10_resolution ("default") (some ("flag")) (some ("env")) none none).1 ("flag") rfl,
   (claim_C10_resolution ("default") none (some ("env")) none none).2.1 rfl ("env") rfl,
   (claim_C10_resolution ("default") none none none none).2.2.1 rfl rfl,
   (claim_C10_resolution ("default") none none (some ("p")) (some ("q"))).2.2.2.1 ("p") rfl,
   (claim_C10_resolution ("default") none none none (some ("q"))).2.2.2.2.1 rfl ("q") rfl,
   (claim_C10_resolution ("default") none none none none).2.2.2.2.2 rfl rfl⟩
end Tab
